import Mathlib

/-!
Verification development for the Edvanta backend
(`src/server/app/routes/roadmap.py` and `src/server/app/utils/ai_utils.py`).

Python strings are modelled as `List Char` where character-level operations
matter (the markdown-fence normalizers) and as `String` for opaque fields
(emails, identifiers, titles).  JSON values are modelled by the inductive
`JVal`; `json_loads` is an executable model of Python's `json.loads`
restricted to null/bool/integer/string/array/object (JSON floats are not
modelled; the repository never relies on them).  Mutable module state
(`_in_memory_roadmaps`, the lazily-connected MongoDB handle, the MongoDB
collection contents) is passed explicitly through a state record `St`.
-/

/-- Python `str.strip` whitespace class (space, tab, newline, carriage return,
vertical tab, form feed). -/
def pyIsSpace (c : Char) : Bool :=
  c = ' ' || c = '\t' || c = '\n' || c = '\r' || c = '\x0b' || c = '\x0c'

/-- Python `str.strip()`: drop leading and trailing whitespace. -/
def pyStrip (s : List Char) : List Char :=
  ((s.dropWhile pyIsSpace).reverse.dropWhile pyIsSpace).reverse

/-- Worker for `removeAll`, structurally recursive on a fuel bound.  Each
step consumes at least one character, so any `fuel ≥ s.length` yields the
fuel-free behaviour. -/
def removeAllGo (pat : List Char) : Nat → List Char → List Char
  | _, [] => []
  | 0, s => s
  | fuel + 1, c :: rest =>
    if pat.length ≠ 0 ∧ pat.isPrefixOf (c :: rest) then
      removeAllGo pat fuel (List.drop (pat.length - 1) rest)
    else
      c :: removeAllGo pat fuel rest

/-- Python `s.replace(pat, "")` for a pattern `pat`: remove every
(non-overlapping, left-to-right) occurrence of `pat` from `s`.  For the empty
pattern this returns `s` unchanged, matching `s.replace("", "") == s`. -/
def removeAll (pat s : List Char) : List Char :=
  removeAllGo pat s.length s

/-- Python `pat in s` substring containment (for nonempty `pat`). -/
def containsSub (pat : List Char) : List Char → Bool
  | [] => pat.isPrefixOf []
  | c :: rest => pat.isPrefixOf (c :: rest) || containsSub pat rest

/-- Python `s.endswith(pat)`. -/
def endsWithList (pat s : List Char) : Bool :=
  pat.reverse.isPrefixOf s.reverse

/-- JSON values, as produced by Python's `json.loads` (floats omitted;
object member order preserved, later duplicate keys overwrite earlier ones
exactly as Python dicts do). -/
inductive JVal : Type where
  | null : JVal
  | bool : Bool → JVal
  | num : Int → JVal
  | str : String → JVal
  | arr : List JVal → JVal
  | obj : List (String × JVal) → JVal

/-- Python-dict insertion: update the value in place if the key exists,
otherwise append the binding. -/
def objUpdate (k : String) (v : JVal) : List (String × JVal) → List (String × JVal)
  | [] => [(k, v)]
  | (k', v') :: rest => if k' = k then (k, v) :: rest else (k', v') :: objUpdate k v rest

/-- JSON whitespace skipping. -/
def skipWs : List Char → List Char
  | [] => []
  | c :: rest => if c = ' ' || c = '\t' || c = '\n' || c = '\r' then skipWs rest else c :: rest

/-- Body of a JSON string literal (opening quote already consumed).  Supports
the escapes the repository's data can contain; `\u` escapes are not modelled
and make the parse fail. -/
def parseStringBody (acc : List Char) : List Char → Option (String × List Char)
  | [] => none
  | '"' :: rest => some (String.mk acc.reverse, rest)
  | '\\' :: e :: rest =>
    if e = '"' then parseStringBody ('"' :: acc) rest
    else if e = '\\' then parseStringBody ('\\' :: acc) rest
    else if e = '/' then parseStringBody ('/' :: acc) rest
    else if e = 'n' then parseStringBody ('\n' :: acc) rest
    else if e = 't' then parseStringBody ('\t' :: acc) rest
    else if e = 'r' then parseStringBody ('\r' :: acc) rest
    else none
  | '\\' :: [] => none
  | c :: rest => parseStringBody (c :: acc) rest

/-- Consume a run of decimal digits, accumulating their value. -/
def parseDigits (acc : Nat) : List Char → Nat × List Char
  | [] => (acc, [])
  | c :: rest =>
    if c.isDigit then parseDigits (acc * 10 + (c.toNat - 48)) rest else (acc, c :: rest)

mutual

/-- Fueled recursive-descent JSON value; returns the value and unconsumed input. -/
def parseVal : Nat → List Char → Option (JVal × List Char)
  | 0, _ => none
  | fuel + 1, s =>
    match skipWs s with
    | [] => none
    | c :: rest =>
      if c = 'n' then
        if (['u', 'l', 'l']).isPrefixOf rest then some (JVal.null, rest.drop 3) else none
      else if c = 't' then
        if (['r', 'u', 'e']).isPrefixOf rest then some (JVal.bool true, rest.drop 3) else none
      else if c = 'f' then
        if (['a', 'l', 's', 'e']).isPrefixOf rest then some (JVal.bool false, rest.drop 4) else none
      else if c = '"' then
        match parseStringBody [] rest with
        | some (st, r) => some (JVal.str st, r)
        | none => none
      else if c = '[' then
        match skipWs rest with
        | ']' :: r => some (JVal.arr [], r)
        | r => parseArrRest fuel [] r
      else if c = '{' then
        match skipWs rest with
        | '}' :: r => some (JVal.obj [], r)
        | r => parseObjRest fuel [] r
      else if c = '-' then
        match rest with
        | d :: r =>
          if d.isDigit then
            let (n, r') := parseDigits (d.toNat - 48) r
            some (JVal.num (-(Int.ofNat n)), r')
          else none
        | [] => none
      else if c.isDigit then
        let (n, r') := parseDigits (c.toNat - 48) rest
        some (JVal.num (Int.ofNat n), r')
      else none

/-- Elements of an array after `[` (and not immediately `]`). -/
def parseArrRest : Nat → List JVal → List Char → Option (JVal × List Char)
  | 0, _, _ => none
  | fuel + 1, acc, s =>
    match parseVal fuel s with
    | none => none
    | some (v, r) =>
      match skipWs r with
      | ',' :: r' => parseArrRest fuel (v :: acc) r'
      | ']' :: r' => some (JVal.arr (v :: acc).reverse, r')
      | _ => none

/-- Members of an object after `{` (and not immediately `}`). -/
def parseObjRest : Nat → List (String × JVal) → List Char → Option (JVal × List Char)
  | 0, _, _ => none
  | fuel + 1, acc, s =>
    match skipWs s with
    | '"' :: rest =>
      match parseStringBody [] rest with
      | none => none
      | some (k, r) =>
        match skipWs r with
        | ':' :: r' =>
          match parseVal fuel r' with
          | none => none
          | some (v, r'') =>
            match skipWs r'' with
            | ',' :: r3 => parseObjRest fuel (objUpdate k v acc) r3
            | '}' :: r3 => some (JVal.obj (objUpdate k v acc), r3)
            | _ => none
        | _ => none
    | _ => none

end

/-- Model of Python `json.loads`: parse one JSON value, demand that only
whitespace remains, otherwise fail (Python raises `json.JSONDecodeError`,
modelled as `none`). -/
def json_loads (s : List Char) : Option JVal :=
  match parseVal (2 * s.length + 4) s with
  | some (v, rest) => if skipWs rest = [] then some v else none
  | none => none

/-- Python dict lookup `d[k]` on a JSON object (last duplicate wins is already
ensured by construction via `objUpdate`); `none` for missing keys or
non-objects. -/
def JVal.getKey : JVal → String → Option JVal
  | .obj kvs, k => (kvs.find? (fun p => p.1 = k)).map (·.2)
  | _, _ => none

/-- Python `isinstance(v, dict)`. -/
def JVal.isObj : JVal → Bool
  | .obj _ => true
  | _ => false

/-- Python `k in d` key membership on a JSON object. -/
def JVal.hasKey (v : JVal) (k : String) : Bool :=
  (v.getKey k).isSome

/-- Python `len(v)`: defined for lists, strings and dicts; `none` models the
`TypeError` raised on other values. -/
def pyLen : JVal → Option Nat
  | .arr xs => some xs.length
  | .str s => some s.length
  | .obj kvs => some kvs.length
  | _ => none

/-- The JSON-tagged markdown fence marker, as a character list. -/
def fenceJson : List Char := ("```json").toList

/-- The bare markdown fence marker. -/
def fenceBare : List Char := ("```").toList

/-- A single backtick character. -/
def tick : Char := '\x60'

/-- Response Normalizer of `generate_roadmap` (roadmap.py lines 131-139):
if the raw text contains "```json", remove every "```json" and every "```"
occurrence and strip; otherwise, if it contains "```", remove every "```"
occurrence and strip; finally remove every remaining backtick character. -/
def clean_roadmap_json (raw : List Char) : List Char :=
  let s :=
    if containsSub fenceJson raw then
      pyStrip (removeAll fenceBare (removeAll fenceJson raw))
    else if containsSub fenceBare raw then
      pyStrip (removeAll fenceBare raw)
    else raw
  removeAll [tick] s

/-- Model of `str(json.JSONDecodeError)`; the exact position-based message text
of the Python library is not modelled, only that it does not embed the
document. -/
def jsonDecodeErrStr (_doc : List Char) : String :=
  "Expecting value"

/-- The normalize-then-parse step of `generate_roadmap` (lines 131-142):
`json.loads` is applied to the cleaned text; on failure the raised
`json.JSONDecodeError` carries (as its `doc` attribute) the string that was
passed to the parser, i.e. the cleaned text. -/
def normalize_and_parse (raw : List Char) : Except (List Char) JVal :=
  match json_loads (clean_roadmap_json raw) with
  | some v => Except.ok v
  | none => Except.error (clean_roadmap_json raw)

/-- Environment of one `create_quiz` call: whether anything in the attempt up
to and including the model call raises, and the raw model response text. -/
structure QuizEnv where
  aiRaises : Bool
  aiText : List Char

/-- Fence cleanup of `create_quiz` (ai_utils.py lines 62-73): strip, drop a
leading "```json" (7 chars) or "```" (3 chars) prefix, drop a trailing "```",
strip again before parsing. -/
def quiz_clean (raw : List Char) : List Char :=
  let t := pyStrip raw
  let t :=
    if fenceJson.isPrefixOf t then t.drop 7
    else if fenceBare.isPrefixOf t then t.drop 3
    else t
  let t := if endsWithList fenceBare t then t.take (t.length - 3) else t
  pyStrip t

/-- Validation of `create_quiz` (lines 76-80): the parsed value is a dict
containing keys "topic", "difficulty", "questions", and `len` of the
"questions" value equals `num_questions`.  A `len` TypeError (`pyLen = none`)
is raised inside the condition, caught by the same `except`, and leads to the
fallback exactly as a `false` condition does. -/
def quiz_validate (q : JVal) (n : Nat) : Bool :=
  q.isObj && q.hasKey ("topic") && q.hasKey ("difficulty") && q.hasKey ("questions") &&
    (match q.getKey ("questions") with
     | some qs => (match pyLen qs with
        | some l => l = n
        | none => false)
     | none => false)

/-- Placeholder option label of the hardcoded quiz: "Option X i". -/
def quiz_option (letter : String) (i : Nat) : String :=
  "Option " ++ letter ++ " " ++ toString i

/-- One hardcoded placeholder question (lines 93-98), 1-based index `i`. -/
def fallback_question (topic : String) (i : Nat) : JVal :=
  JVal.obj
    [("id", JVal.num (Int.ofNat i)),
     ("question", JVal.str ("Sample question " ++ toString i ++ " for " ++ topic ++ "?")),
     ("options", JVal.arr
        [JVal.str (quiz_option ("A") i), JVal.str (quiz_option ("B") i),
         JVal.str (quiz_option ("C") i), JVal.str (quiz_option ("D") i)]),
     ("correctAnswer", JVal.str (quiz_option ("A") i))]

/-- The hardcoded fallback quiz (lines 89-101). -/
def fallback_quiz (topic difficulty : String) (n : Nat) : JVal :=
  JVal.obj
    [("topic", JVal.str topic),
     ("difficulty", JVal.str difficulty),
     ("questions", JVal.arr ((List.range n).map (fun i => fallback_question topic (i + 1))))]

/-- `create_quiz(topic, difficulty, num_questions)` (ai_utils.py lines 18-101):
attempt the model call, clean the fences, parse, validate; on any exception or
validation failure fall through to the hardcoded quiz. -/
def create_quiz (env : QuizEnv) (topic difficulty : String) (num_questions : Nat) : JVal :=
  if env.aiRaises then fallback_quiz topic difficulty num_questions
  else
    match json_loads (quiz_clean env.aiText) with
    | none => fallback_quiz topic difficulty num_questions
    | some q =>
      if quiz_validate q num_questions then q
      else fallback_quiz topic difficulty num_questions

/-- The well-formedness property claimed for every quiz result: the
"questions" member is a list of exactly `n` entries, each a dict whose
"options" member is a list of exactly 4 entries. -/
def quizWellFormed (q : JVal) (n : Nat) : Bool :=
  match q.getKey ("questions") with
  | some (.arr xs) =>
    xs.length = n && xs.all (fun x =>
      match x.getKey ("options") with
      | some (.arr os) => os.length = 4
      | _ => false)
  | _ => false

/-- The document built by `generate_roadmap` (roadmap.py lines 145-153) for
persistence in either store.  `created_at` is an abstract timestamp token
(the in-memory copy stores `isoformat()` of the same instant, which we do not
distinguish). -/
structure RoadmapRecord where
  id : String
  user_email : String
  title : String
  description : String
  duration_weeks : Option Int
  created_at : Nat
  data : JVal

/-- Module-level mutable state of roadmap.py: whether the lazily established
MongoDB handle is currently set (`db is not None`; `connect_to_mongodb`
returns all three of client/db/collection or none of them, so a set handle
implies a usable collection name), the contents of the MongoDB roadmap
collection (which persist whether or not the process holds a handle), and the
`_in_memory_roadmaps` dict keyed by record id. -/
structure St where
  conn : Bool
  dbData : List RoadmapRecord
  mem : List (String × RoadmapRecord)

/-- Bodies of the JSON responses the roadmap routes produce. -/
inductive Payload where
  | err (msg : String)
  | roadmap (data : JVal) (note : Option String) (warning : Option String)
  | record (r : RoadmapRecord)
  | listed (rs : List RoadmapRecord)
  | deleted (msg : String)

/-- An HTTP response: status code and JSON body. -/
structure Resp where
  status : Nat
  payload : Payload

/-- Environment of one `generate_roadmap` request: outcome of the lazy
reconnect attempt, whether the Vertex SDK import succeeds, whether anything
from credential loading through the model call raises (and its message), the
raw model response text, whether `insert_one` raises (and its message), and
the freshly generated uuid and timestamp. -/
structure GenEnv where
  connectOk : Bool
  vertexAvailable : Bool
  aiRaises : Bool
  aiErrMsg : String
  aiText : List Char
  insertRaises : Bool
  dbErrMsg : String
  uuid : String
  now : Nat

/-- Environment of one retrieval/delete/list request: outcome of the lazy
reconnect attempt, and whether the MongoDB operation raises (and its
message). -/
structure OpEnv where
  connectOk : Bool
  dbRaises : Bool
  opErrMsg : String

/-- HTTP method of the `/api/roadmap/<id>` route. -/
inductive Method where
  | get : Method
  | delete : Method

/-- Lazy reconnect performed at the start of every request (`if db is None:
... = connect_to_mongodb()`): only the handle flag changes; the external
collection contents and the in-memory dict are untouched. -/
def reconnect (ok : Bool) (st : St) : St :=
  if st.conn then st else { st with conn := ok }

/-- Python-dict insertion for `_in_memory_roadmaps[k] = v`. -/
def memInsert (m : List (String × RoadmapRecord)) (k : String) (v : RoadmapRecord) :
    List (String × RoadmapRecord) :=
  match m with
  | [] => [(k, v)]
  | (k', v') :: rest => if k' = k then (k, v) :: rest else (k', v') :: memInsert rest k v

/-- Python `dict.pop(k, None)`: remove the binding of key `k` (all of them in
this list model; a genuine dict has at most one). -/
def memPop (k : String) : List (String × RoadmapRecord) → List (String × RoadmapRecord)
  | [] => []
  | (k', v') :: rest => if k' = k then memPop k rest else (k', v') :: memPop k rest

/-- Python dict lookup `_in_memory_roadmaps.get(k)`. -/
def memGet (m : List (String × RoadmapRecord)) (k : String) : Option RoadmapRecord :=
  (m.find? (fun p => p.1 = k)).map (·.2)

/-- `find_one({"id": i, "user_email": e})` on the roadmap collection. -/
def dbFind (data : List RoadmapRecord) (i e : String) : Option RoadmapRecord :=
  data.find? (fun r => r.id = i ∧ r.user_email = e)

/-- The in-memory lookup loop of `get_roadmap_by_id` (lines 265-269): first
stored record whose `id` field and `user_email` field match. -/
def memFind (m : List (String × RoadmapRecord)) (i e : String) : Option RoadmapRecord :=
  (m.find? (fun p => p.2.id = i ∧ p.2.user_email = e)).map (·.2)

/-- `delete_one({"id": i, "user_email": e})`: remove the first matching record
and report the deleted count. -/
def deleteOneDb (data : List RoadmapRecord) (i e : String) : List RoadmapRecord × Nat :=
  match data with
  | [] => ([], 0)
  | r :: rest =>
    if r.id = i ∧ r.user_email = e then (rest, 1)
    else
      let p := deleteOneDb rest i e
      (r :: p.1, p.2)

/-- `find(...).sort("created_at", -1)`: descending insertion sort on the
timestamp. -/
def insertDesc (r : RoadmapRecord) : List RoadmapRecord → List RoadmapRecord
  | [] => [r]
  | x :: xs => if x.created_at ≤ r.created_at then r :: x :: xs else x :: insertDesc r xs

/-- Sort a record list by `created_at` descending. -/
def sortDesc : List RoadmapRecord → List RoadmapRecord
  | [] => []
  | x :: xs => insertDesc x (sortDesc xs)

/-- One node of the static fallback roadmap (lines 93-98). -/
def fallback_node (i t d : String) (w : Int) : JVal :=
  JVal.obj
    [("id", JVal.str i), ("title", JVal.str t), ("description", JVal.str d),
     ("recommended_weeks", JVal.num w), ("resources", JVal.arr [])]

/-- One edge of the static fallback roadmap. -/
def edgeObj (f t : String) : JVal :=
  JVal.obj [("from", JVal.str f), ("to", JVal.str t)]

/-- The static fallback roadmap returned when the Vertex SDK cannot be
imported (lines 92-104): four fixed nodes in a linear chain. -/
def fallback_roadmap (goal background : String) : JVal :=
  JVal.obj
    [("nodes", JVal.arr
       [fallback_node ("start") ("Start: " ++ goal) background 1,
        fallback_node ("fundamentals") ("Fundamentals") ("Core concepts and basics.") 2,
        fallback_node ("project") ("Project Work") ("Build a project to apply learning.") 2,
        fallback_node ("goal") ("Achieve: " ++ goal) ("Target goal milestone.") 1]),
     ("edges", JVal.arr
       [edgeObj ("start") ("fundamentals"),
        edgeObj ("fundamentals") ("project"),
        edgeObj ("project") ("goal")])]

/-- The `roadmap_document` synthesized on a successful parse (lines 145-153). -/
def mkRecord (env : GenEnv) (goal background : String) (dw : Option Int)
    (user_email : String) (v : JVal) : RoadmapRecord :=
  { id := env.uuid, user_email := user_email, title := goal, description := background,
    duration_weeks := dw, created_at := env.now, data := v }

/-- `POST /api/roadmap/generate` (roadmap.py lines 56-182). -/
def generate_roadmap (env : GenEnv) (goal background : String) (dw : Option Int)
    (user_email : String) (st : St) : Resp × St :=
  let st1 := reconnect env.connectOk st
  if goal = "" || background = "" then
    (⟨400, .err ("Missing goal or background")⟩, st1)
  else if user_email = "" then
    (⟨400, .err ("Missing user email")⟩, st1)
  else if !env.vertexAvailable then
    (⟨200, .roadmap (fallback_roadmap goal background)
        (some ("AI service not available; returned a basic fallback roadmap.")) none⟩, st1)
  else if env.aiRaises then
    (⟨500, .err ("Roadmap generation failed: " ++ env.aiErrMsg)⟩, st1)
  else
    match normalize_and_parse env.aiText with
    | .error doc =>
      (⟨500, .err ("Roadmap generation failed: " ++ jsonDecodeErrStr doc)⟩, st1)
    | .ok v =>
      let rcd := mkRecord env goal background dw user_email v
      if st1.conn then
        if env.insertRaises then
          (⟨200, .roadmap v none
              (some ("Database save failed, stored in memory fallback: " ++ env.dbErrMsg))⟩,
           { st1 with mem := memInsert st1.mem env.uuid rcd })
        else
          (⟨200, .roadmap v none none⟩, { st1 with dbData := st1.dbData ++ [rcd] })
      else
        (⟨200, .roadmap v (some ("MongoDB not configured; using in-memory storage")) none⟩,
         { st1 with mem := memInsert st1.mem env.uuid rcd })

/-- `GET /api/roadmap/user` (lines 185-215). -/
def get_user_roadmaps (env : OpEnv) (user_email : String) (st : St) : Resp × St :=
  let st1 := reconnect env.connectOk st
  if user_email = "" then
    (⟨400, .err ("Missing user_email parameter")⟩, st1)
  else if st1.conn then
    if env.dbRaises then
      (⟨500, .err ("Failed to retrieve roadmaps: " ++ env.opErrMsg)⟩, st1)
    else
      (⟨200, .listed (sortDesc (st1.dbData.filter (fun r => r.user_email = user_email)))⟩, st1)
  else
    (⟨200, .listed ((st1.mem.map (·.2)).filter (fun r => r.user_email = user_email))⟩, st1)

/-- `GET`/`DELETE /api/roadmap/<roadmap_id>` (lines 218-281). -/
def get_roadmap_by_id (env : OpEnv) (m : Method) (roadmap_id user_email : String)
    (st : St) : Resp × St :=
  let st1 := reconnect env.connectOk st
  if roadmap_id = "" then
    (⟨400, .err ("Missing roadmap_id parameter")⟩, st1)
  else if user_email = "" then
    (⟨400, .err ("Missing user_email parameter")⟩, st1)
  else if st1.conn then
    if env.dbRaises then
      (⟨500, .err ("Operation failed: " ++ env.opErrMsg)⟩, st1)
    else
      match dbFind st1.dbData roadmap_id user_email with
      | none => (⟨404, .err ("Roadmap not found or access denied")⟩, st1)
      | some r =>
        match m with
        | .delete =>
          let p := deleteOneDb st1.dbData roadmap_id user_email
          if 0 < p.2 then
            (⟨200, .deleted ("Roadmap deleted successfully")⟩, { st1 with dbData := p.1 })
          else
            (⟨500, .err ("Failed to delete roadmap")⟩, { st1 with dbData := p.1 })
        | .get => (⟨200, .record r⟩, st1)
  else
    match memFind st1.mem roadmap_id user_email with
    | none => (⟨404, .err ("Roadmap not found or access denied")⟩, st1)
    | some r =>
      match m with
      | .delete =>
        (⟨200, .deleted ("Roadmap deleted successfully")⟩,
         { st1 with mem := memPop r.id st1.mem })
      | .get => (⟨200, .record r⟩, st1)

/-- One inbound request against the roadmap blueprint. -/
inductive Op where
  | generate (env : GenEnv) (goal background : String) (dw : Option Int) (email : String)
  | byId (env : OpEnv) (m : Method) (i e : String)
  | listFor (env : OpEnv) (e : String)

/-- Request dispatch: run one request against the module state. -/
def step : Op → St → Resp × St
  | .generate env goal background dw email, st => generate_roadmap env goal background dw email st
  | .byId env m i e, st => get_roadmap_by_id env m i e st
  | .listFor env e, st => get_user_roadmaps env e st

/-- A record is persisted in the document store. -/
def inDb (r : RoadmapRecord) (st : St) : Prop := r ∈ st.dbData

/-- A record is persisted in the in-memory fallback mapping (under some key). -/
def inMem (r : RoadmapRecord) (st : St) : Prop := ∃ k, (k, r) ∈ st.mem

/-- A record is persisted in exactly one of the two stores. -/
def storedExactlyOnce (r : RoadmapRecord) (st : St) : Prop :=
  (inDb r st ∧ ¬ inMem r st) ∨ (¬ inDb r st ∧ inMem r st)

/-- Membership of `r` per store is unchanged between two states (no
migration, no duplication, no loss). -/
def sameStores (r : RoadmapRecord) (st st' : St) : Prop :=
  (inDb r st ↔ inDb r st') ∧ (inMem r st ↔ inMem r st')

/-- A record is persisted in neither store. -/
def notStored (r : RoadmapRecord) (st : St) : Prop := ¬ inDb r st ∧ ¬ inMem r st

/-- The request is an explicit DELETE of `r`'s id issued by `r`'s owner. -/
def isOwnerDelete (op : Op) (r : RoadmapRecord) : Prop :=
  ∃ env, op = Op.byId env Method.delete r.id r.user_email

/-- Freshness of a generate request's uuid with respect to a state: `uuid4`
never collides with an id already present in either store. -/
def opFresh (op : Op) (st : St) : Prop :=
  match op with
  | .generate env _ _ _ _ =>
    (∀ x ∈ st.dbData, x.id ≠ env.uuid) ∧
      (∀ p ∈ st.mem, p.1 ≠ env.uuid ∧ p.2.id ≠ env.uuid)
  | _ => True

/-- Invariant of `_in_memory_roadmaps`: every binding's key is the bound
record's `id` field (the dict is always written as `d[doc["id"]] = doc`). -/
def memKeysOk (st : St) : Prop := ∀ p ∈ st.mem, p.1 = p.2.id

/-- Invariant of `_in_memory_roadmaps`: keys are pairwise distinct (a Python
dict cannot hold a key twice). -/
def memKeysNodup (st : St) : Prop := (st.mem.map Prod.fst).Nodup

/-- The `id` members of a graph value's node list, in order. -/
def nodeIds (g : JVal) : List (Option JVal) :=
  match g.getKey ("nodes") with
  | some (.arr xs) => xs.map (fun x => x.getKey ("id"))
  | _ => []

/-- Lemma: inserting under key `k` keeps every binding whose key differs. -/
theorem mem_memInsert_of_ne {m : List (String × RoadmapRecord)} {p : String × RoadmapRecord}
    {k : String} {v : RoadmapRecord} :
    p ∈ m → p.1 ≠ k → p ∈ memInsert m k v := by
  induction m with
  | nil => intro h; cases h
  | cons q rest ih =>
    intro h hk
    rcases List.mem_cons.mp h with h | h
    · simp only [memInsert]
      by_cases hq : q.1 = k
      · exact absurd hq (by simpa [← h] using hk)
      · simp only [if_neg hq]
        simp [h]
    · simp only [memInsert]
      by_cases hq : q.1 = k
      · simp only [if_pos hq]
        exact List.mem_cons_of_mem _ h
      · simp only [if_neg hq]
        exact List.mem_cons_of_mem _ (ih h hk)

/-- Lemma: the inserted binding is present after insertion. -/
theorem mem_memInsert_self (m : List (String × RoadmapRecord)) (k : String)
    (v : RoadmapRecord) : (k, v) ∈ memInsert m k v := by
  induction m with
  | nil => simp [memInsert]
  | cons q rest ih =>
    simp only [memInsert]
    by_cases hq : q.1 = k
    · simp [if_pos hq]
    · simp only [if_neg hq]
      exact List.mem_cons_of_mem _ ih

/-- Lemma: any binding present after insertion is the inserted one or an old
one. -/
theorem of_mem_memInsert {m : List (String × RoadmapRecord)} {p : String × RoadmapRecord}
    {k : String} {v : RoadmapRecord} :
    p ∈ memInsert m k v → p = (k, v) ∨ p ∈ m := by
  induction m with
  | nil => intro h; simpa [memInsert] using h
  | cons q rest ih =>
    intro h
    simp only [memInsert] at h
    by_cases hq : q.1 = k
    · simp only [if_pos hq] at h
      rcases List.mem_cons.mp h with h | h
      · exact Or.inl h
      · exact Or.inr (List.mem_cons_of_mem _ h)
    · simp only [if_neg hq] at h
      rcases List.mem_cons.mp h with h | h
      · exact Or.inr (by simp [h])
      · rcases ih h with h' | h'
        · exact Or.inl h'
        · exact Or.inr (List.mem_cons_of_mem _ h')

/-- Lemma: membership after `pop k` is membership before, at a key other than
`k`. -/
theorem mem_memPop {m : List (String × RoadmapRecord)} {p : String × RoadmapRecord}
    {k : String} : p ∈ memPop k m ↔ p ∈ m ∧ p.1 ≠ k := by
  induction m with
  | nil => simp [memPop]
  | cons q rest ih =>
    simp only [memPop]
    by_cases hq : q.1 = k
    · simp only [if_pos hq, ih, List.mem_cons]
      constructor
      · rintro ⟨h, hne⟩
        exact ⟨Or.inr h, hne⟩
      · rintro ⟨h | h, hne⟩
        · exact absurd (h ▸ hq) hne
        · exact ⟨h, hne⟩
    · simp only [if_neg hq, List.mem_cons, ih]
      constructor
      · rintro (h | ⟨h, hne⟩)
        · exact ⟨Or.inl h, by simpa [h] using hq⟩
        · exact ⟨Or.inr h, hne⟩
      · rintro ⟨h | h, hne⟩
        · exact Or.inl h
        · exact Or.inr ⟨h, hne⟩

/-- Lemma: `delete_one` only removes records. -/
theorem deleteOneDb_subset {data : List RoadmapRecord} {i e : String}
    {r : RoadmapRecord} : r ∈ (deleteOneDb data i e).1 → r ∈ data := by
  induction data with
  | nil => intro h; simp [deleteOneDb] at h
  | cons q rest ih =>
    intro h
    simp only [deleteOneDb] at h
    by_cases hq : q.id = i ∧ q.user_email = e
    · simp only [if_pos hq] at h
      exact List.mem_cons_of_mem _ h
    · simp only [if_neg hq] at h
      rcases List.mem_cons.mp h with h | h
      · simp [h]
      · exact List.mem_cons_of_mem _ (ih h)

/-- Lemma: `delete_one` keeps every record not matching the filter. -/
theorem mem_deleteOneDb_of_not_match {data : List RoadmapRecord} {i e : String}
    {r : RoadmapRecord} (hm : ¬ (r.id = i ∧ r.user_email = e)) :
    r ∈ data → r ∈ (deleteOneDb data i e).1 := by
  induction data with
  | nil => intro h; cases h
  | cons q rest ih =>
    intro h
    simp only [deleteOneDb]
    by_cases hq : q.id = i ∧ q.user_email = e
    · simp only [if_pos hq]
      rcases List.mem_cons.mp h with h | h
      · exact absurd (h ▸ hq) hm
      · exact h
    · simp only [if_neg hq]
      rcases List.mem_cons.mp h with h | h
      · simp [h]
      · exact List.mem_cons_of_mem _ (ih h)

/-- Lemma: a successful `find_one` returns a member matching the filter. -/
theorem dbFind_some {data : List RoadmapRecord} {i e : String} {r : RoadmapRecord}
    (h : dbFind data i e = some r) : r ∈ data ∧ r.id = i ∧ r.user_email = e := by
  refine ⟨List.mem_of_find?_eq_some h, ?_⟩
  have := List.find?_some h
  simpa using this

/-- Lemma: `find_one` fails when no member matches the filter. -/
theorem dbFind_eq_none {data : List RoadmapRecord} {i e : String}
    (h : ∀ x ∈ data, ¬ (x.id = i ∧ x.user_email = e)) : dbFind data i e = none := by
  apply List.find?_eq_none.mpr
  intro x hx
  simpa using h x hx

/-- Lemma: a successful in-memory lookup returns a stored record matching the
filter. -/
theorem memFind_some {m : List (String × RoadmapRecord)} {i e : String}
    {r : RoadmapRecord} (h : memFind m i e = some r) :
    (∃ k, (k, r) ∈ m) ∧ r.id = i ∧ r.user_email = e := by
  simp only [memFind, Option.map_eq_some'] at h
  obtain ⟨p, hp, hpr⟩ := h
  have hmem := List.mem_of_find?_eq_some hp
  have hmatch := List.find?_some hp
  simp only [decide_eq_true_eq] at hmatch
  subst hpr
  exact ⟨⟨p.1, by simpa using hmem⟩, hmatch⟩

/-- Lemma: the in-memory lookup fails when no stored record matches. -/
theorem memFind_eq_none {m : List (String × RoadmapRecord)} {i e : String}
    (h : ∀ p ∈ m, ¬ (p.2.id = i ∧ p.2.user_email = e)) : memFind m i e = none := by
  simp only [memFind, Option.map_eq_none']
  apply List.find?_eq_none.mpr
  intro p hp
  simpa using h p hp

/-- Lemma: every character of a contained substring occurs in the string. -/
theorem containsSub_mem {pat s : List Char} {c : Char} :
    containsSub pat s = true → c ∈ pat → c ∈ s := by
  induction s with
  | nil =>
    intro h hc
    cases pat with
    | nil => cases hc
    | cons a t => simp [containsSub, List.isPrefixOf] at h
  | cons a rest ih =>
    intro h hc
    simp only [containsSub, Bool.or_eq_true] at h
    rcases h with h | h
    · exact (List.isPrefixOf_iff_prefix.mp h).subset hc
    · exact List.mem_cons_of_mem _ (ih h hc)

/-- Lemma: with any fuel, removing a never-occurring pattern is the
identity. -/
theorem removeAllGo_of_not_containsSub {pat : List Char} (fuel : Nat) :
    ∀ {s : List Char}, containsSub pat s = false → removeAllGo pat fuel s = s := by
  induction fuel with
  | zero =>
    intro s _
    cases s <;> rfl
  | succ n ih =>
    intro s h
    cases s with
    | nil => rfl
    | cons a rest =>
      simp only [containsSub, Bool.or_eq_false_iff] at h
      have hc : ¬ (pat.length ≠ 0 ∧ pat.isPrefixOf (a :: rest) = true) := by
        rintro ⟨-, hpre⟩
        rw [h.1] at hpre
        cases hpre
      rw [removeAllGo, if_neg hc, ih h.2]

/-- Lemma: removing a never-occurring pattern is the identity. -/
theorem removeAll_of_not_containsSub {pat s : List Char}
    (h : containsSub pat s = false) : removeAll pat s = s :=
  removeAllGo_of_not_containsSub _ h

/-- Lemma: with enough fuel, removing all occurrences of a single character
removes that character entirely. -/
theorem not_mem_removeAllGo_single (c : Char) (fuel : Nat) :
    ∀ s : List Char, s.length ≤ fuel → c ∉ removeAllGo [c] fuel s := by
  induction fuel with
  | zero =>
    intro s hs
    have : s = [] := List.length_eq_zero.mp (Nat.le_zero.mp hs)
    subst this
    simp [removeAllGo]
  | succ n ih =>
    intro s hs
    cases s with
    | nil => simp [removeAllGo]
    | cons a rest =>
      simp only [List.length_cons, Nat.succ_le_succ_iff] at hs
      by_cases hcond : ([c] : List Char).length ≠ 0 ∧ ([c] : List Char).isPrefixOf (a :: rest) = true
      · rw [removeAllGo, if_pos hcond]
        simpa using ih rest hs
      · rw [removeAllGo, if_neg hcond]
        intro hmem
        rcases List.mem_cons.mp hmem with h | h
        · apply hcond
          refine ⟨by simp, ?_⟩
          simp [List.isPrefixOf, h]
        · exact ih rest hs h

/-- Lemma: removing all occurrences of a single character removes that
character entirely. -/
theorem not_mem_removeAll_single (c : Char) (s : List Char) :
    c ∉ removeAll [c] s :=
  not_mem_removeAllGo_single c s.length s (Nat.le_refl _)

/-- Lemma: a pattern containing a character absent from the string is not
contained in the string. -/
theorem containsSub_eq_false_of_not_mem {pat s : List Char} {c : Char}
    (hc : c ∈ pat) (h : c ∉ s) : containsSub pat s = false := by
  cases hcs : containsSub pat s
  · rfl
  · exact absurd (containsSub_mem hcs hc) h

/-- Lemma: the normalizer's output never contains a backtick. -/
theorem clean_no_tick (s : List Char) : tick ∉ clean_roadmap_json s := by
  simp only [clean_roadmap_json]
  exact not_mem_removeAll_single tick _

/-- Lemma: the normalizer is the identity on backtick-free text. -/
theorem clean_eq_of_no_tick {s : List Char} (h : tick ∉ s) :
    clean_roadmap_json s = s := by
  have h1 : containsSub fenceJson s = false :=
    containsSub_eq_false_of_not_mem (by decide) h
  have h2 : containsSub fenceBare s = false :=
    containsSub_eq_false_of_not_mem (by decide) h
  have h3 : containsSub [tick] s = false :=
    containsSub_eq_false_of_not_mem (by simp) h
  simp only [clean_roadmap_json, h1, h2, Bool.false_eq_true, if_false]
  exact removeAll_of_not_containsSub h3

/-- Lemma: the normalizer is idempotent. -/
theorem clean_idem (s : List Char) :
    clean_roadmap_json (clean_roadmap_json s) = clean_roadmap_json s :=
  clean_eq_of_no_tick (clean_no_tick s)

/-- Lemma: dict lookup on a cons cell. -/
theorem memGet_cons (p : String × RoadmapRecord) (l : List (String × RoadmapRecord))
    (k : String) : memGet (p :: l) k = if p.1 = k then some p.2 else memGet l k := by
  by_cases hp : p.1 = k
  · simp [memGet, if_pos hp, List.find?_cons_of_pos, hp]
  · rw [if_neg hp]
    simp only [memGet]
    rw [List.find?_cons_of_neg]
    simp [hp]

/-- Lemma: looking up the key just inserted yields the inserted record. -/
theorem memGet_memInsert (m : List (String × RoadmapRecord)) (k : String)
    (v : RoadmapRecord) : memGet (memInsert m k v) k = some v := by
  induction m with
  | nil => simp [memInsert, memGet]
  | cons q rest ih =>
    by_cases hq : q.1 = k
    · simp [memInsert, if_pos hq, memGet_cons]
    · simp only [memInsert, if_neg hq]
      rw [memGet_cons, if_neg hq]
      exact ih

/-- C7 counterexample: the string `"` `"` (a JSON string literal containing one
backtick) contains no fence marker, yet normalizing changes the parsed value:
the final backtick-removal pass deletes the character inside the string
literal, so normalize-then-parse disagrees with parsing directly.  This
refutes the claim that for every already-clean JSON string (one containing no
fence markers) normalizing and parsing yields the same parsed value. -/
theorem roadmap_c7_cx :
    containsSub fenceJson ['"', tick, '"'] = false ∧
    containsSub fenceBare ['"', tick, '"'] = false ∧
    json_loads ['"', tick, '"'] = some (JVal.str ("\x60")) ∧
    json_loads (clean_roadmap_json ['"', tick, '"']) = some (JVal.str ("")) ∧
    json_loads (clean_roadmap_json ['"', tick, '"']) ≠ json_loads ['"', tick, '"'] := by
  refine ⟨by rfl, by rfl, by rfl, by rfl, ?_⟩
  intro h
  have h1 : json_loads (clean_roadmap_json ['"', tick, '"']) = some (JVal.str ("")) := by rfl
  have h2 : json_loads ['"', tick, '"'] = some (JVal.str ("\x60")) := by rfl
  rw [h1, h2] at h
  simp only [Option.some.injEq, JVal.str.injEq] at h
  exact absurd h (by decide)

/-- C7 (amended): the Response Normalizer is the identity on backtick-free
text (hence parsing after normalizing agrees with parsing directly there),
and the normalizer is idempotent on all inputs, so renormalizing a normalizer
output always preserves the parsed value. -/
theorem roadmap_normalizer_idempotent :
    (∀ s : List Char, tick ∉ s →
      clean_roadmap_json s = s ∧ json_loads (clean_roadmap_json s) = json_loads s) ∧
    (∀ s : List Char,
      clean_roadmap_json (clean_roadmap_json s) = clean_roadmap_json s ∧
      json_loads (clean_roadmap_json (clean_roadmap_json s)) =
        json_loads (clean_roadmap_json s)) := by
  constructor
  · intro s h
    have he := clean_eq_of_no_tick h
    exact ⟨he, by rw [he]⟩
  · intro s
    have he := clean_idem s
    exact ⟨he, by rw [he]⟩

/-- C7 witness: the theorem applied to the concrete backtick-free text
`[1]`. -/
theorem roadmap_normalizer_idempotent_witness :
    tick ∉ (("[1]").toList) ∧
    (clean_roadmap_json (("[1]").toList) = ("[1]").toList ∧
      json_loads (clean_roadmap_json (("[1]").toList)) = json_loads (("[1]").toList)) :=
  ⟨by decide, roadmap_normalizer_idempotent.1 (("[1]").toList) (by decide)⟩

/-- C6 counterexample: for the fenced, unparseable response text
"```json\nnot json\n```" the parse failure carries the cleaned text
"not json" (the string handed to `json.loads`), which differs from the
original raw text — refuting the claim that the ParseError carries the
original raw text. -/
theorem roadmap_c6_cx :
    normalize_and_parse (("```json\nnot json\n```").toList) =
      Except.error (("not json").toList) ∧
    ("not json").toList ≠ ("```json\nnot json\n```").toList := by
  exact ⟨by rfl, by decide⟩

/-- Lemma: the lazy reconnect never changes the collection contents. -/
theorem reconnect_dbData (ok : Bool) (st : St) : (reconnect ok st).dbData = st.dbData := by
  by_cases h : st.conn <;> simp [reconnect, h]

/-- Lemma: the lazy reconnect never changes the in-memory mapping. -/
theorem reconnect_mem (ok : Bool) (st : St) : (reconnect ok st).mem = st.mem := by
  by_cases h : st.conn <;> simp [reconnect, h]

/-- C6 (amended): for every raw model response on the main generation path,
the text actually parsed is `clean_roadmap_json` of the raw text (the
three-step fence-stripping algorithm); a parse failure raises a ParseError
carrying the cleaned text — not the original raw text — and surfaces as a 500
with both stores untouched, while a parse success returns the parsed graph
with status 200. -/
theorem roadmap_normalize_parse (env : GenEnv) (st : St) (goal background : String)
    (dw : Option Int) (email : String) (hg : goal ≠ "") (hb : background ≠ "")
    (he : email ≠ "") (hvx : env.vertexAvailable = true) (hr : env.aiRaises = false) :
    (json_loads (clean_roadmap_json env.aiText) = none →
      normalize_and_parse env.aiText = Except.error (clean_roadmap_json env.aiText) ∧
      (generate_roadmap env goal background dw email st).1.status = 500 ∧
      (generate_roadmap env goal background dw email st).2.dbData = st.dbData ∧
      (generate_roadmap env goal background dw email st).2.mem = st.mem) ∧
    (∀ v, json_loads (clean_roadmap_json env.aiText) = some v →
      ∃ note warn, (generate_roadmap env goal background dw email st).1 =
        ⟨200, Payload.roadmap v note warn⟩) := by
  constructor
  · intro hn
    have hnp : normalize_and_parse env.aiText =
        Except.error (clean_roadmap_json env.aiText) := by
      simp [normalize_and_parse, hn]
    refine ⟨hnp, ?_⟩
    simp only [generate_roadmap, hg, hb, he, hvx, hr, hnp]
    simp [reconnect_dbData, reconnect_mem]
  · intro v hv
    have hnp : normalize_and_parse env.aiText = Except.ok v := by
      simp [normalize_and_parse, hv]
    by_cases hc : (reconnect env.connectOk st).conn
    · by_cases hi : env.insertRaises
      · refine ⟨none, some ("Database save failed, stored in memory fallback: " ++ env.dbErrMsg), ?_⟩
        simp [generate_roadmap, hg, hb, he, hvx, hr, hnp, hc, hi]
      · refine ⟨none, none, ?_⟩
        simp [generate_roadmap, hg, hb, he, hvx, hr, hnp, hc, hi]
    · refine ⟨some ("MongoDB not configured; using in-memory storage"), none, ?_⟩
      simp [generate_roadmap, hg, hb, he, hvx, hr, hnp, hc]

/-- C6 witness: the amended theorem applied to a concrete failing response
text inside fences, with the document store unconfigured. -/
theorem roadmap_normalize_parse_witness :
    json_loads (clean_roadmap_json (("```json\nnot json\n```").toList)) = none ∧
    (normalize_and_parse (("```json\nnot json\n```").toList) =
      Except.error (clean_roadmap_json (("```json\nnot json\n```").toList)) ∧
     (generate_roadmap ⟨false, true, false, "", ("```json\nnot json\n```").toList, false, "", "u1", 0⟩
        ("g") ("b") none ("a@x.com") ⟨false, [], []⟩).1.status = 500 ∧
     (generate_roadmap ⟨false, true, false, "", ("```json\nnot json\n```").toList, false, "", "u1", 0⟩
        ("g") ("b") none ("a@x.com") ⟨false, [], []⟩).2.dbData = (⟨false, [], []⟩ : St).dbData ∧
     (generate_roadmap ⟨false, true, false, "", ("```json\nnot json\n```").toList, false, "", "u1", 0⟩
        ("g") ("b") none ("a@x.com") ⟨false, [], []⟩).2.mem = (⟨false, [], []⟩ : St).mem) :=
  ⟨by rfl,
   (roadmap_normalize_parse ⟨false, true, false, "", ("```json\nnot json\n```").toList, false, "", "u1", 0⟩
      ⟨false, [], []⟩ ("g") ("b") none ("a@x.com") (by decide) (by decide) (by decide)
      (by rfl) (by rfl)).1 (by rfl)⟩

/-- C8: on a valid request with the Vertex SDK structurally absent, generate
returns status 200 with the static fallback graph — exactly 4 nodes with ids
start, fundamentals, project, goal and exactly the 3 chain edges — plus an
explanatory note, not an error. -/
theorem roadmap_static_fallback (env : GenEnv) (st : St) (goal background : String)
    (dw : Option Int) (email : String) (hg : goal ≠ "") (hb : background ≠ "")
    (he : email ≠ "") (hvx : env.vertexAvailable = false) :
    (generate_roadmap env goal background dw email st).1 =
      ⟨200, Payload.roadmap (fallback_roadmap goal background)
        (some ("AI service not available; returned a basic fallback roadmap.")) none⟩ ∧
    nodeIds (fallback_roadmap goal background) =
      [some (JVal.str ("start")), some (JVal.str ("fundamentals")),
       some (JVal.str ("project")), some (JVal.str ("goal"))] ∧
    (fallback_roadmap goal background).getKey ("edges") =
      some (JVal.arr
        [edgeObj ("start") ("fundamentals"), edgeObj ("fundamentals") ("project"),
         edgeObj ("project") ("goal")]) := by
  refine ⟨?_, by rfl, by rfl⟩
  simp [generate_roadmap, hg, hb, he, hvx]

/-- C8 witness: the theorem applied at the spec's concrete scenario. -/
theorem roadmap_static_fallback_witness :
    ("Become an ML Engineer" : String) ≠ "" ∧
    (generate_roadmap ⟨false, false, false, "", [], false, "", "u1", 0⟩
        ("Become an ML Engineer") ("Python programmer") (some 12) ("a@x.com")
        ⟨false, [], []⟩).1 =
      ⟨200, Payload.roadmap (fallback_roadmap ("Become an ML Engineer") ("Python programmer"))
        (some ("AI service not available; returned a basic fallback roadmap.")) none⟩ :=
  ⟨by decide,
   (roadmap_static_fallback ⟨false, false, false, "", [], false, "", "u1", 0⟩
      ⟨false, [], []⟩ ("Become an ML Engineer") ("Python programmer") (some 12) ("a@x.com")
      (by decide) (by decide) (by decide) (by rfl)).1⟩

/-- C10: the structurally-absent-client fallback path persists nothing: the
document store contents and the in-memory mapping are unchanged (so no later
lookup or listing can observe anything new), and the returned fallback graph
carries no generated record identifier. -/
theorem roadmap_fallback_no_persist (env : GenEnv) (st : St) (goal background : String)
    (dw : Option Int) (email : String) (hg : goal ≠ "") (hb : background ≠ "")
    (he : email ≠ "") (hvx : env.vertexAvailable = false) :
    (generate_roadmap env goal background dw email st).2.dbData = st.dbData ∧
    (generate_roadmap env goal background dw email st).2.mem = st.mem ∧
    (∀ k, memGet (generate_roadmap env goal background dw email st).2.mem k =
      memGet st.mem k) ∧
    (generate_roadmap env goal background dw email st).1.payload =
      Payload.roadmap (fallback_roadmap goal background)
        (some ("AI service not available; returned a basic fallback roadmap.")) none ∧
    (fallback_roadmap goal background).getKey ("id") = none := by
  have hst : (generate_roadmap env goal background dw email st).2 =
      reconnect env.connectOk st := by
    simp [generate_roadmap, hg, hb, he, hvx]
  refine ⟨?_, ?_, ?_, ?_, by rfl⟩
  · rw [hst, reconnect_dbData]
  · rw [hst, reconnect_mem]
  · intro k
    rw [hst, reconnect_mem]
  · simp [generate_roadmap, hg, hb, he, hvx]

/-- C10 witness: the theorem applied at a concrete valid request against a
nonempty in-memory store. -/
theorem roadmap_fallback_no_persist_witness :
    ("g" : String) ≠ "" ∧
    (generate_roadmap ⟨true, false, false, "", [], false, "", "u1", 0⟩ ("g") ("b") none
        ("a@x.com") ⟨false, [], [("r0", ⟨"r0", "a@x.com", "t", "d", none, 0, JVal.null⟩)]⟩).2.mem =
      (⟨false, [], [("r0", ⟨"r0", "a@x.com", "t", "d", none, 0, JVal.null⟩)]⟩ : St).mem :=
  ⟨by decide,
   (roadmap_fallback_no_persist ⟨true, false, false, "", [], false, "", "u1", 0⟩
      ⟨false, [], [("r0", ⟨"r0", "a@x.com", "t", "d", none, 0, JVal.null⟩)]⟩ ("g") ("b") none
      ("a@x.com") (by decide) (by decide) (by decide) (by rfl)).2.1⟩

/-- Lemma: resulting state of a generate call that reaches a successful
parse, by persistence path. -/
theorem generate_success_state (env : GenEnv) (st : St) (goal background : String)
    (dw : Option Int) (email : String) (v : JVal) (hg : goal ≠ "") (hb : background ≠ "")
    (he : email ≠ "") (hvx : env.vertexAvailable = true) (hr : env.aiRaises = false)
    (hp : json_loads (clean_roadmap_json env.aiText) = some v) :
    ((reconnect env.connectOk st).conn = false →
      (generate_roadmap env goal background dw email st).2 =
        { reconnect env.connectOk st with
            mem := memInsert (reconnect env.connectOk st).mem env.uuid
              (mkRecord env goal background dw email v) }) ∧
    ((reconnect env.connectOk st).conn = true → env.insertRaises = true →
      (generate_roadmap env goal background dw email st).2 =
        { reconnect env.connectOk st with
            mem := memInsert (reconnect env.connectOk st).mem env.uuid
              (mkRecord env goal background dw email v) }) ∧
    ((reconnect env.connectOk st).conn = true → env.insertRaises = false →
      (generate_roadmap env goal background dw email st).2 =
        { reconnect env.connectOk st with
            dbData := (reconnect env.connectOk st).dbData ++
              [mkRecord env goal background dw email v] }) := by
  have hnp : normalize_and_parse env.aiText = Except.ok v := by
    simp [normalize_and_parse, hp]
  refine ⟨?_, ?_, ?_⟩
  · intro hc
    simp [generate_roadmap, hg, hb, he, hvx, hr, hnp, hc]
  · intro hc hi
    simp [generate_roadmap, hg, hb, he, hvx, hr, hnp, hc, hi]
  · intro hc hi
    simp [generate_roadmap, hg, hb, he, hvx, hr, hnp, hc, hi]

/-- C1: on every valid generate request reaching a successful parse — if the
document store is not configured, or the store write raises, the synthesized
record is inserted into the in-memory fallback mapping keyed by its generated
identifier and the response is status 200 carrying the roadmap graph plus an
advisory note resp. warning string; a successful document-store write returns
the roadmap graph with no advisory note or warning. -/
theorem roadmap_persistence_duality (env : GenEnv) (st : St) (goal background : String)
    (dw : Option Int) (email : String) (v : JVal) (hg : goal ≠ "") (hb : background ≠ "")
    (he : email ≠ "") (hvx : env.vertexAvailable = true) (hr : env.aiRaises = false)
    (hp : json_loads (clean_roadmap_json env.aiText) = some v) :
    ((reconnect env.connectOk st).conn = false →
      (generate_roadmap env goal background dw email st).1 =
        ⟨200, Payload.roadmap v (some ("MongoDB not configured; using in-memory storage")) none⟩ ∧
      memGet (generate_roadmap env goal background dw email st).2.mem env.uuid =
        some (mkRecord env goal background dw email v)) ∧
    ((reconnect env.connectOk st).conn = true → env.insertRaises = true →
      (generate_roadmap env goal background dw email st).1 =
        ⟨200, Payload.roadmap v none
          (some ("Database save failed, stored in memory fallback: " ++ env.dbErrMsg))⟩ ∧
      memGet (generate_roadmap env goal background dw email st).2.mem env.uuid =
        some (mkRecord env goal background dw email v)) ∧
    ((reconnect env.connectOk st).conn = true → env.insertRaises = false →
      (generate_roadmap env goal background dw email st).1 =
        ⟨200, Payload.roadmap v none none⟩ ∧
      (generate_roadmap env goal background dw email st).2.dbData =
        st.dbData ++ [mkRecord env goal background dw email v] ∧
      (generate_roadmap env goal background dw email st).2.mem = st.mem) := by
  have hnp : normalize_and_parse env.aiText = Except.ok v := by
    simp [normalize_and_parse, hp]
  have hstate := generate_success_state env st goal background dw email v hg hb he hvx hr hp
  refine ⟨?_, ?_, ?_⟩
  · intro hc
    constructor
    · simp [generate_roadmap, hg, hb, he, hvx, hr, hnp, hc]
    · rw [hstate.1 hc]
      exact memGet_memInsert _ _ _
  · intro hc hi
    constructor
    · simp [generate_roadmap, hg, hb, he, hvx, hr, hnp, hc, hi]
    · rw [hstate.2.1 hc hi]
      exact memGet_memInsert _ _ _
  · intro hc hi
    refine ⟨?_, ?_, ?_⟩
    · simp [generate_roadmap, hg, hb, he, hvx, hr, hnp, hc, hi]
    · rw [hstate.2.2 hc hi]
      simp [reconnect_dbData]
    · rw [hstate.2.2 hc hi]
      simp [reconnect_mem]

/-- C1 witness: the theorem applied with the store unconfigured and the
concrete parsed response `[1]`. -/
theorem roadmap_persistence_duality_witness :
    json_loads (clean_roadmap_json (("[1]").toList)) = some (JVal.arr [JVal.num 1]) ∧
    ((generate_roadmap ⟨false, true, false, "", ("[1]").toList, false, "", "u1", 7⟩
        ("g") ("b") none ("a@x.com") ⟨false, [], []⟩).1 =
      ⟨200, Payload.roadmap (JVal.arr [JVal.num 1])
        (some ("MongoDB not configured; using in-memory storage")) none⟩ ∧
     memGet (generate_roadmap ⟨false, true, false, "", ("[1]").toList, false, "", "u1", 7⟩
        ("g") ("b") none ("a@x.com") ⟨false, [], []⟩).2.mem ("u1") =
      some (mkRecord ⟨false, true, false, "", ("[1]").toList, false, "", "u1", 7⟩
        ("g") ("b") none ("a@x.com") (JVal.arr [JVal.num 1]))) :=
  ⟨by rfl,
   (roadmap_persistence_duality ⟨false, true, false, "", ("[1]").toList, false, "", "u1", 7⟩
      ⟨false, [], []⟩ ("g") ("b") none ("a@x.com") (JVal.arr [JVal.num 1])
      (by decide) (by decide) (by decide) (by rfl) (by rfl) (by rfl)).1 (by rfl)⟩

/-- C3: ownership isolation — for a stored record owned by A, any requester
B ≠ A using the record's correct id receives, from both getById and deleteById,
exactly the 404 "Roadmap not found or access denied" response, identical to
the response for an id that exists nowhere: a foreign record is
indistinguishable from an absent one. -/
theorem roadmap_ownership_isolation (env : OpEnv) (st : St) (r : RoadmapRecord)
    (B : String) (henv : env.dbRaises = false) (_hstored : inDb r st ∨ inMem r st)
    (hB : B ≠ r.user_email) (hBne : B ≠ "") (hid : r.id ≠ "")
    (huniqDb : ∀ x ∈ st.dbData, x.id = r.id → x.user_email = r.user_email)
    (huniqMem : ∀ p ∈ st.mem, p.2.id = r.id → p.2.user_email = r.user_email) :
    (get_roadmap_by_id env Method.get r.id B st).1 =
      ⟨404, Payload.err ("Roadmap not found or access denied")⟩ ∧
    (get_roadmap_by_id env Method.delete r.id B st).1 =
      ⟨404, Payload.err ("Roadmap not found or access denied")⟩ ∧
    (∀ j : String, j ≠ "" → (∀ x ∈ st.dbData, x.id ≠ j) → (∀ p ∈ st.mem, p.2.id ≠ j) →
      (get_roadmap_by_id env Method.get j B st).1 =
        ⟨404, Payload.err ("Roadmap not found or access denied")⟩ ∧
      (get_roadmap_by_id env Method.delete j B st).1 =
        ⟨404, Payload.err ("Roadmap not found or access denied")⟩) := by
  have hdbf : dbFind (reconnect env.connectOk st).dbData r.id B = none := by
    rw [reconnect_dbData]
    apply dbFind_eq_none
    intro x hx hmatch
    exact hB (hmatch.2 ▸ (huniqDb x hx hmatch.1).symm).symm
  have hmf : memFind (reconnect env.connectOk st).mem r.id B = none := by
    rw [reconnect_mem]
    apply memFind_eq_none
    intro p hp hmatch
    exact hB (hmatch.2 ▸ (huniqMem p hp hmatch.1).symm).symm
  refine ⟨?_, ?_, ?_⟩
  · by_cases hc : (reconnect env.connectOk st).conn <;>
      simp [get_roadmap_by_id, hid, hBne, hc, henv, hdbf, hmf]
  · by_cases hc : (reconnect env.connectOk st).conn <;>
      simp [get_roadmap_by_id, hid, hBne, hc, henv, hdbf, hmf]
  · intro j hj hjdb hjmem
    have hdbf' : dbFind (reconnect env.connectOk st).dbData j B = none := by
      rw [reconnect_dbData]
      apply dbFind_eq_none
      intro x hx hmatch
      exact hjdb x hx hmatch.1
    have hmf' : memFind (reconnect env.connectOk st).mem j B = none := by
      rw [reconnect_mem]
      apply memFind_eq_none
      intro p hp hmatch
      exact hjmem p hp hmatch.1
    constructor
    · by_cases hc : (reconnect env.connectOk st).conn <;>
        simp [get_roadmap_by_id, hj, hBne, hc, henv, hdbf', hmf']
    · by_cases hc : (reconnect env.connectOk st).conn <;>
        simp [get_roadmap_by_id, hj, hBne, hc, henv, hdbf', hmf']

/-- C3 witness: the theorem applied to a concrete record of "a@x.com" stored
in memory, queried by "b@x.com" with the correct id. -/
theorem roadmap_ownership_isolation_witness :
    (("b@x.com") : String) ≠ "a@x.com" ∧
    (get_roadmap_by_id ⟨false, false, ""⟩ Method.get ("r1") ("b@x.com")
        ⟨false, [], [("r1", ⟨"r1", "a@x.com", "t", "d", none, 0, JVal.null⟩)]⟩).1 =
      ⟨404, Payload.err ("Roadmap not found or access denied")⟩ :=
  ⟨by decide,
   (roadmap_ownership_isolation ⟨false, false, ""⟩
      ⟨false, [], [("r1", ⟨"r1", "a@x.com", "t", "d", none, 0, JVal.null⟩)]⟩
      ⟨"r1", "a@x.com", "t", "d", none, 0, JVal.null⟩ ("b@x.com") (by rfl)
      (Or.inr ⟨"r1", by simp⟩) (by decide) (by decide) (by decide)
      (by intro x hx; cases hx) (by intro p hp hid; simp at hp; rw [hp])).1⟩

/-- C9 counterexample: an in-memory state whose stored binding sits under key
"k1" while the record's id field is "r1".  The existence check succeeds (the
loop matches on the id field), the subsequent `pop` of key "r1" removes
nothing (zero records deleted), yet the route replies success 200 with the
mapping unchanged — the in-memory deletion path performs no count-deleted
verification and never signals an internal failure. -/
theorem roadmap_c9_cx :
    memFind [(("k1" : String), (⟨"r1", "a@x.com", "t", "d", none, 0, JVal.null⟩ : RoadmapRecord))]
        ("r1") ("a@x.com") = some ⟨"r1", "a@x.com", "t", "d", none, 0, JVal.null⟩ ∧
    (get_roadmap_by_id ⟨false, false, ""⟩ Method.delete ("r1") ("a@x.com")
        ⟨false, [], [("k1", ⟨"r1", "a@x.com", "t", "d", none, 0, JVal.null⟩)]⟩).1 =
      ⟨200, Payload.deleted ("Roadmap deleted successfully")⟩ ∧
    (get_roadmap_by_id ⟨false, false, ""⟩ Method.delete ("r1") ("a@x.com")
        ⟨false, [], [("k1", ⟨"r1", "a@x.com", "t", "d", none, 0, JVal.null⟩)]⟩).2.mem =
      [("k1", ⟨"r1", "a@x.com", "t", "d", none, 0, JVal.null⟩)] ∧
    (get_roadmap_by_id ⟨false, false, ""⟩ Method.delete ("r1") ("a@x.com")
        ⟨false, [], [("k1", ⟨"r1", "a@x.com", "t", "d", none, 0, JVal.null⟩)]⟩).1.status ≠ 500 :=
  ⟨by rfl, by rfl, by rfl, by decide⟩

/-- C9 (amended): after a successful existence check, only the document-store
deletion path verifies the deleted count — success when positive, a 500
internal failure when zero; the in-memory fallback path pops the found
record's id and returns the success flag unconditionally, with no
verification that anything was removed. -/
theorem roadmap_delete_verification (env : OpEnv) (st : St) (i e : String)
    (r : RoadmapRecord) (hi : i ≠ "") (he : e ≠ "") :
    ((reconnect env.connectOk st).conn = true → env.dbRaises = false →
      dbFind (reconnect env.connectOk st).dbData i e = some r →
      (0 < (deleteOneDb (reconnect env.connectOk st).dbData i e).2 →
        (get_roadmap_by_id env Method.delete i e st).1 =
          ⟨200, Payload.deleted ("Roadmap deleted successfully")⟩) ∧
      ((deleteOneDb (reconnect env.connectOk st).dbData i e).2 = 0 →
        (get_roadmap_by_id env Method.delete i e st).1 =
          ⟨500, Payload.err ("Failed to delete roadmap")⟩)) ∧
    ((reconnect env.connectOk st).conn = false →
      memFind (reconnect env.connectOk st).mem i e = some r →
      (get_roadmap_by_id env Method.delete i e st).1 =
        ⟨200, Payload.deleted ("Roadmap deleted successfully")⟩ ∧
      (get_roadmap_by_id env Method.delete i e st).2.mem =
        memPop r.id (reconnect env.connectOk st).mem) := by
  constructor
  · intro hc hdr hf
    constructor
    · intro hcount
      simp [get_roadmap_by_id, hi, he, hc, hdr, hf, hcount]
    · intro hcount
      simp [get_roadmap_by_id, hi, he, hc, hdr, hf, hcount]
  · intro hc hf
    constructor
    · simp [get_roadmap_by_id, hi, he, hc, hf]
    · simp [get_roadmap_by_id, hi, he, hc, hf]

/-- C9 witness: the amended theorem applied on the in-memory path at the
counterexample state, and on the document-store path at a one-record
collection. -/
theorem roadmap_delete_verification_witness :
    (("r1") : String) ≠ "" ∧
    ((get_roadmap_by_id ⟨false, false, ""⟩ Method.delete ("r1") ("a@x.com")
        ⟨false, [], [("k1", ⟨"r1", "a@x.com", "t", "d", none, 0, JVal.null⟩)]⟩).1 =
      ⟨200, Payload.deleted ("Roadmap deleted successfully")⟩ ∧
     (get_roadmap_by_id ⟨false, false, ""⟩ Method.delete ("r1") ("a@x.com")
        ⟨false, [], [("k1", ⟨"r1", "a@x.com", "t", "d", none, 0, JVal.null⟩)]⟩).2.mem =
      memPop ("r1")
        (reconnect false ⟨false, [], [("k1", ⟨"r1", "a@x.com", "t", "d", none, 0, JVal.null⟩)]⟩).mem) :=
  ⟨by decide,
   (roadmap_delete_verification ⟨false, false, ""⟩
      ⟨false, [], [("k1", ⟨"r1", "a@x.com", "t", "d", none, 0, JVal.null⟩)]⟩
      ("r1") ("a@x.com") ⟨"r1", "a@x.com", "t", "d", none, 0, JVal.null⟩
      (by decide) (by decide)).2 (by rfl) (by rfl)⟩

/-- Lemma: the "questions" member of the hardcoded fallback quiz. -/
theorem fallback_quiz_questions (t d : String) (n : Nat) :
    (fallback_quiz t d n).getKey ("questions") =
      some (JVal.arr ((List.range n).map (fun i => fallback_question t (i + 1)))) := by
  rfl

/-- Lemma: the hardcoded fallback quiz satisfies the claimed shape: n
questions of 4 options each. -/
theorem quizWellFormed_fallback (t d : String) (n : Nat) :
    quizWellFormed (fallback_quiz t d n) n = true := by
  simp only [quizWellFormed, fallback_quiz_questions]
  rw [Bool.and_eq_true]
  constructor
  · simp
  · rw [List.all_eq_true]
    intro x hx
    simp only [List.mem_map, List.mem_range] at hx
    obtain ⟨i, hi, rfl⟩ := hx
    rfl

/-- Lemma: the fallback quiz is a dict of the three required keys whose
questions member has length n. -/
theorem fallback_quiz_shape (t d : String) (n : Nat) :
    (fallback_quiz t d n).isObj = true ∧
    (fallback_quiz t d n).hasKey ("topic") = true ∧
    (fallback_quiz t d n).hasKey ("difficulty") = true ∧
    ∃ qs, (fallback_quiz t d n).getKey ("questions") = some qs ∧ pyLen qs = some n := by
  refine ⟨by rfl, by rfl, by rfl, ⟨_, fallback_quiz_questions t d n, ?_⟩⟩
  simp [pyLen]

/-- Lemma: a validated quiz object is a dict with the three required keys and
a questions member of Python-length n. -/
theorem quiz_validate_questions {q : JVal} {n : Nat} (h : quiz_validate q n = true) :
    q.isObj = true ∧ q.hasKey ("topic") = true ∧ q.hasKey ("difficulty") = true ∧
    ∃ qs, q.getKey ("questions") = some qs ∧ pyLen qs = some n := by
  simp only [quiz_validate, Bool.and_eq_true] at h
  obtain ⟨⟨⟨⟨h1, h2⟩, h3⟩, h4⟩, h5⟩ := h
  refine ⟨h1, h2, h3, ?_⟩
  cases hq : q.getKey ("questions") with
  | none => simp [hq] at h5
  | some qs =>
    simp only [hq] at h5
    cases hl : pyLen qs with
    | none => simp [hl] at h5
    | some l =>
      simp only [hl, decide_eq_true_eq] at h5
      exact ⟨qs, rfl, by rw [hl, h5]⟩

/-- Lemma: whenever the AI attempt raises, the parse fails, or validation
fails, `create_quiz` returns the hardcoded fallback quiz. -/
theorem create_quiz_eq_fallback {env : QuizEnv} {t d : String} {n : Nat}
    (h : env.aiRaises = true ∨ json_loads (quiz_clean env.aiText) = none ∨
      (∀ q, json_loads (quiz_clean env.aiText) = some q → quiz_validate q n = false)) :
    create_quiz env t d n = fallback_quiz t d n := by
  rcases h with h | h | h
  · simp [create_quiz, h]
  · simp [create_quiz, h]
  · by_cases hr : env.aiRaises = true
    · simp [create_quiz, hr]
    · simp only [create_quiz, hr, Bool.false_eq_true, if_false]
      cases hq : json_loads (quiz_clean env.aiText) with
      | none => rfl
      | some q => simp [h q hq]

/-- C4 counterexample: a generative response that passes validation (a dict
with topic, difficulty and a questions list of the demanded length) is
returned as-is even though its single question entry has no options at all —
refuting the claim that every returned quiz has 4 options per question
regardless of the generative outcome. -/
theorem quiz_c4_cx :
    create_quiz ⟨false, (("\x7b\"topic\": \"t\", \"difficulty\": \"d\", \"questions\": [0]\x7d").toList)⟩
        ("t") ("d") 1 =
      JVal.obj [("topic", JVal.str ("t")), ("difficulty", JVal.str ("d")),
        ("questions", JVal.arr [JVal.num 0])] ∧
    quizWellFormed
      (create_quiz ⟨false, (("\x7b\"topic\": \"t\", \"difficulty\": \"d\", \"questions\": [0]\x7d").toList)⟩
        ("t") ("d") 1) 1 = false :=
  ⟨by rfl, by rfl⟩

/-- C4 (amended): `create_quiz` never surfaces an error: it always returns a
dict carrying topic, difficulty and a questions member of Python-length
exactly n; whenever the attempt raises, the parse fails or validation fails,
the result is moreover the hardcoded fallback whose n questions each have
exactly 4 options — but a validation-passing AI response is returned as-is,
without any per-question option check. -/
theorem quiz_totality (env : QuizEnv) (t d : String) (n : Nat) :
    ((create_quiz env t d n).isObj = true ∧
     (create_quiz env t d n).hasKey ("topic") = true ∧
     (create_quiz env t d n).hasKey ("difficulty") = true ∧
     ∃ qs, (create_quiz env t d n).getKey ("questions") = some qs ∧ pyLen qs = some n) ∧
    ((env.aiRaises = true ∨ json_loads (quiz_clean env.aiText) = none ∨
        (∀ q, json_loads (quiz_clean env.aiText) = some q → quiz_validate q n = false)) →
      create_quiz env t d n = fallback_quiz t d n ∧
      quizWellFormed (create_quiz env t d n) n = true) := by
  constructor
  · by_cases hr : env.aiRaises = true
    · rw [create_quiz_eq_fallback (Or.inl hr)]
      exact fallback_quiz_shape t d n
    · cases hq : json_loads (quiz_clean env.aiText) with
      | none =>
        rw [create_quiz_eq_fallback (Or.inr (Or.inl hq))]
        exact fallback_quiz_shape t d n
      | some q =>
        by_cases hv : quiz_validate q n = true
        · have hcq : create_quiz env t d n = q := by
            simp [create_quiz, hr, hq, hv]
          rw [hcq]
          exact quiz_validate_questions hv
        · have hfb : create_quiz env t d n = fallback_quiz t d n := by
            apply create_quiz_eq_fallback
            refine Or.inr (Or.inr (fun q' hq' => ?_))
            have hqq : q' = q := Option.some.inj (hq'.symm.trans hq)
            rw [hqq]
            cases hval : quiz_validate q n with
            | false => rfl
            | true => exact absurd hval hv
          rw [hfb]
          exact fallback_quiz_shape t d n
  · intro h
    have hfb := create_quiz_eq_fallback (t := t) (d := d) h
    rw [hfb]
    exact ⟨rfl, quizWellFormed_fallback t d n⟩

/-- C4 witness: the amended theorem applied with the generative call raising,
at n = 2. -/
theorem quiz_totality_witness :
    (create_quiz ⟨true, []⟩ ("t") ("d") 2).isObj = true ∧
    (create_quiz ⟨true, []⟩ ("t") ("d") 2 = fallback_quiz ("t") ("d") 2 ∧
     quizWellFormed (create_quiz ⟨true, []⟩ ("t") ("d") 2) 2 = true) :=
  ⟨(quiz_totality ⟨true, []⟩ ("t") ("d") 2).1.1,
   (quiz_totality ⟨true, []⟩ ("t") ("d") 2).2 (Or.inl rfl)⟩

/-- C5: whenever the quiz attempt raises or the parsed value fails validation,
`create_quiz` silently returns the deterministic hardcoded quiz: exactly n
placeholder questions with 1-based ids 1..n, each carrying the 4 labelled
placeholder options A..D and a correctAnswer equal verbatim to the first
option. -/
theorem quiz_fallback_deterministic (env : QuizEnv) (t d : String) (n : Nat)
    (h : env.aiRaises = true ∨ json_loads (quiz_clean env.aiText) = none ∨
      (∀ q, json_loads (quiz_clean env.aiText) = some q → quiz_validate q n = false)) :
    create_quiz env t d n = fallback_quiz t d n ∧
    ∃ L, (fallback_quiz t d n).getKey ("questions") = some (JVal.arr L) ∧
      L.length = n ∧
      ∀ i, i < n →
        L[i]? = some (fallback_question t (i + 1)) ∧
        (fallback_question t (i + 1)).getKey ("id") = some (JVal.num (Int.ofNat (i + 1))) ∧
        (fallback_question t (i + 1)).getKey ("options") = some (JVal.arr
          [JVal.str (quiz_option ("A") (i + 1)), JVal.str (quiz_option ("B") (i + 1)),
           JVal.str (quiz_option ("C") (i + 1)), JVal.str (quiz_option ("D") (i + 1))]) ∧
        (fallback_question t (i + 1)).getKey ("correctAnswer") =
          some (JVal.str (quiz_option ("A") (i + 1))) := by
  refine ⟨create_quiz_eq_fallback h, ⟨_, fallback_quiz_questions t d n, ?_, ?_⟩⟩
  · simp
  · intro i hi
    refine ⟨?_, by rfl, by rfl, by rfl⟩
    rw [List.getElem?_map, List.getElem?_range hi]
    rfl

/-- C5 witness: the theorem applied with the generative call raising, at
n = 3. -/
theorem quiz_fallback_deterministic_witness :
    (⟨true, []⟩ : QuizEnv).aiRaises = true ∧
    create_quiz ⟨true, []⟩ ("t") ("d") 3 = fallback_quiz ("t") ("d") 3 :=
  ⟨rfl, (quiz_fallback_deterministic ⟨true, []⟩ ("t") ("d") 3 (Or.inl rfl)).1⟩

/-- Lemma: in a mapping with pairwise-distinct keys, a key determines its
record. -/
theorem nodupKeys_eq {m : List (String × RoadmapRecord)} {k : String}
    {a b : RoadmapRecord} (hnd : (m.map Prod.fst).Nodup) :
    (k, a) ∈ m → (k, b) ∈ m → a = b := by
  induction m with
  | nil => intro ha _; cases ha
  | cons q rest ih =>
    intro ha hb
    simp only [List.map_cons, List.nodup_cons] at hnd
    rcases List.mem_cons.mp ha with ha' | ha' <;> rcases List.mem_cons.mp hb with hb' | hb'
    · have hab : (k, a) = (k, b) := ha'.trans hb'.symm
      simpa using hab
    · exfalso
      apply hnd.1
      rw [← ha']
      simpa using List.mem_map_of_mem Prod.fst hb'
    · exfalso
      apply hnd.1
      rw [← hb']
      simpa using List.mem_map_of_mem Prod.fst ha'
    · exact ih hnd.2 ha' hb'

/-- Lemma: equal store contents give identical per-store membership. -/
theorem sameStores_of_eq {r : RoadmapRecord} {st st' : St}
    (hdb : st'.dbData = st.dbData) (hmem : st'.mem = st.mem) : sameStores r st st' := by
  constructor
  · simp [inDb, hdb]
  · simp [inMem, hmem]

/-- Lemma: possible resulting states of a generate request. -/
theorem generate_state_cases (env : GenEnv) (st : St) (goal background : String)
    (dw : Option Int) (email : String) :
    (generate_roadmap env goal background dw email st).2 = reconnect env.connectOk st ∨
    (∃ v, normalize_and_parse env.aiText = Except.ok v ∧
      (generate_roadmap env goal background dw email st).2 =
        { reconnect env.connectOk st with
          mem := memInsert (reconnect env.connectOk st).mem env.uuid
            (mkRecord env goal background dw email v) }) ∨
    (∃ v, normalize_and_parse env.aiText = Except.ok v ∧
      (generate_roadmap env goal background dw email st).2 =
        { reconnect env.connectOk st with
          dbData := (reconnect env.connectOk st).dbData ++
            [mkRecord env goal background dw email v] }) := by
  by_cases hL : goal = ""
  · exact Or.inl (by simp [generate_roadmap, hL])
  by_cases hR : background = ""
  · exact Or.inl (by simp [generate_roadmap, hL, hR])
  by_cases hE : email = ""
  · exact Or.inl (by simp [generate_roadmap, hL, hR, hE])
  cases hV : env.vertexAvailable with
  | false => exact Or.inl (by simp [generate_roadmap, hL, hR, hE, hV])
  | true =>
    cases hA : env.aiRaises with
    | true => exact Or.inl (by simp [generate_roadmap, hL, hR, hE, hV, hA])
    | false =>
      cases hN : normalize_and_parse env.aiText with
      | error doc => exact Or.inl (by simp [generate_roadmap, hL, hR, hE, hV, hA, hN])
      | ok v =>
        cases hC : (reconnect env.connectOk st).conn with
        | false =>
          exact Or.inr (Or.inl ⟨v, rfl,
            by simp [generate_roadmap, hL, hR, hE, hV, hA, hN, hC]⟩)
        | true =>
          cases hI : env.insertRaises with
          | true =>
            exact Or.inr (Or.inl ⟨v, rfl,
              by simp [generate_roadmap, hL, hR, hE, hV, hA, hN, hC, hI]⟩)
          | false =>
            exact Or.inr (Or.inr ⟨v, rfl,
              by simp [generate_roadmap, hL, hR, hE, hV, hA, hN, hC, hI]⟩)

/-- Lemma: possible resulting states of a getById/deleteById request. -/
theorem byId_state_cases (env : OpEnv) (m : Method) (i e : String) (st : St) :
    (get_roadmap_by_id env m i e st).2 = reconnect env.connectOk st ∨
    (m = Method.delete ∧ (get_roadmap_by_id env m i e st).2 =
      { reconnect env.connectOk st with
        dbData := (deleteOneDb (reconnect env.connectOk st).dbData i e).1 }) ∨
    (m = Method.delete ∧ ∃ r, memFind (reconnect env.connectOk st).mem i e = some r ∧
      (get_roadmap_by_id env m i e st).2 =
        { reconnect env.connectOk st with
          mem := memPop r.id (reconnect env.connectOk st).mem }) := by
  by_cases hi : i = ""
  · exact Or.inl (by simp [get_roadmap_by_id, hi])
  by_cases he : e = ""
  · exact Or.inl (by simp [get_roadmap_by_id, hi, he])
  cases hc : (reconnect env.connectOk st).conn with
  | true =>
    cases hdr : env.dbRaises with
    | true => exact Or.inl (by simp [get_roadmap_by_id, hi, he, hc, hdr])
    | false =>
      cases hf : dbFind (reconnect env.connectOk st).dbData i e with
      | none => exact Or.inl (by simp [get_roadmap_by_id, hi, he, hc, hdr, hf])
      | some r =>
        cases m with
        | get => exact Or.inl (by simp [get_roadmap_by_id, hi, he, hc, hdr, hf])
        | delete =>
          refine Or.inr (Or.inl ⟨rfl, ?_⟩)
          by_cases hcount : 0 < (deleteOneDb (reconnect env.connectOk st).dbData i e).2
          · simp [get_roadmap_by_id, hi, he, hc, hdr, hf, hcount]
          · simp [get_roadmap_by_id, hi, he, hc, hdr, hf, hcount]
  | false =>
    cases hf : memFind (reconnect env.connectOk st).mem i e with
    | none => exact Or.inl (by simp [get_roadmap_by_id, hi, he, hc, hf])
    | some r =>
      cases m with
      | get => exact Or.inl (by simp [get_roadmap_by_id, hi, he, hc, hf])
      | delete =>
        exact Or.inr (Or.inr ⟨rfl, r, rfl,
          by simp [get_roadmap_by_id, hi, he, hc, hf]⟩)

/-- Lemma: a list request never changes the state beyond the lazy
reconnect. -/
theorem listFor_state (env : OpEnv) (e : String) (st : St) :
    (get_user_roadmaps env e st).2 = reconnect env.connectOk st := by
  by_cases he : e = ""
  · simp [get_user_roadmaps, he]
  cases hc : (reconnect env.connectOk st).conn with
  | true =>
    cases hdr : env.dbRaises with
    | true => simp [get_user_roadmaps, he, hc, hdr]
    | false => simp [get_user_roadmaps, he, hc, hdr]
  | false => simp [get_user_roadmaps, he, hc]

/-- C2: (creation) a successful generate call persists the synthesized record
in exactly one of the two stores; and (preservation) every request leaves an
exclusively stored record exactly where it is — never duplicated into the
other store, never migrated — except an explicit DELETE of that record's id
by its owner, which may remove it from both.  Freshness of the generated
uuid and the two dict invariants of `_in_memory_roadmaps` (keys are the
stored record ids, keys are pairwise distinct) are assumed. -/
theorem roadmap_record_exclusivity :
    (∀ (op : Op) (st : St) (r : RoadmapRecord),
      storedExactlyOnce r st → opFresh op st → memKeysOk st → memKeysNodup st →
      (sameStores r st (step op st).2 ∨
        (isOwnerDelete op r ∧ notStored r (step op st).2))) ∧
    (∀ (env : GenEnv) (st : St) (goal background : String) (dw : Option Int)
        (email : String) (v : JVal),
      goal ≠ "" → background ≠ "" → email ≠ "" → env.vertexAvailable = true →
      env.aiRaises = false → json_loads (clean_roadmap_json env.aiText) = some v →
      opFresh (Op.generate env goal background dw email) st →
      storedExactlyOnce (mkRecord env goal background dw email v)
        (step (Op.generate env goal background dw email) st).2) := by
  constructor
  · intro op st r hex hfresh hko hnd
    cases op with
    | generate env goal background dw email =>
      have hrid : r.id ≠ env.uuid := by
        rcases hex with ⟨hdb, -⟩ | ⟨-, hmem⟩
        · exact hfresh.1 r hdb
        · obtain ⟨k0, hk0⟩ := hmem
          exact (hfresh.2 _ hk0).2
      rcases generate_state_cases env st goal background dw email with
        hst | ⟨v, hnp, hst⟩ | ⟨v, hnp, hst⟩
      · left
        simp only [step, hst]
        exact sameStores_of_eq (reconnect_dbData _ _) (reconnect_mem _ _)
      · left
        have hrne : r ≠ mkRecord env goal background dw email v := by
          intro hre
          exact hrid (by rw [hre]; rfl)
        constructor
        · simp only [inDb, step, hst, reconnect_dbData]
        · simp only [inMem, step, hst]
          constructor
          · rintro ⟨k0, hk0⟩
            refine ⟨k0, mem_memInsert_of_ne ?_ ?_⟩
            · rw [reconnect_mem]
              exact hk0
            · exact (hfresh.2 _ hk0).1
          · rintro ⟨k0, hk0⟩
            rcases of_mem_memInsert hk0 with h | h
            · exact absurd (congrArg Prod.snd h) hrne
            · rw [reconnect_mem] at h
              exact ⟨k0, h⟩
      · left
        have hrne : r ≠ mkRecord env goal background dw email v := by
          intro hre
          exact hrid (by rw [hre]; rfl)
        constructor
        · simp only [inDb, step, hst, reconnect_dbData, List.mem_append,
            List.mem_singleton]
          constructor
          · exact fun h => Or.inl h
          · rintro (h | h)
            · exact h
            · exact absurd h hrne
        · simp only [inMem, step, hst, reconnect_mem]
    | byId env m i e =>
      rcases byId_state_cases env m i e st with
        hst | ⟨hm, hst⟩ | ⟨hm, rf, hf, hst⟩
      · left
        simp only [step, hst]
        exact sameStores_of_eq (reconnect_dbData _ _) (reconnect_mem _ _)
      · by_cases hrd : r ∈ (deleteOneDb (reconnect env.connectOk st).dbData i e).1
        · left
          constructor
          · simp only [inDb, step, hst]
            constructor
            · exact fun _ => hrd
            · intro h
              have := deleteOneDb_subset h
              rwa [reconnect_dbData] at this
          · simp only [inMem, step, hst, reconnect_mem]
        · by_cases hrdb : r ∈ st.dbData
          · have hmatch : r.id = i ∧ r.user_email = e := by
              by_contra hnm
              apply hrd
              apply mem_deleteOneDb_of_not_match hnm
              rw [reconnect_dbData]
              exact hrdb
            right
            constructor
            · subst hm
              exact ⟨env, by rw [hmatch.1, hmatch.2]⟩
            · constructor
              · simp only [inDb, step, hst]
                exact hrd
              · simp only [inMem, step, hst, reconnect_mem]
                rcases hex with ⟨-, hnm⟩ | ⟨hndb, -⟩
                · exact hnm
                · exact absurd hrdb hndb
          · left
            constructor
            · simp only [inDb, step, hst]
              constructor
              · exact fun h => absurd h hrdb
              · intro h
                have := deleteOneDb_subset h
                rw [reconnect_dbData] at this
                exact absurd this hrdb
            · simp only [inMem, step, hst, reconnect_mem]
      · by_cases hrm : ∃ k0, (k0, r) ∈ memPop rf.id (reconnect env.connectOk st).mem
        · left
          constructor
          · simp only [inDb, step, hst, reconnect_dbData]
          · simp only [inMem, step, hst]
            constructor
            · exact fun _ => hrm
            · rintro ⟨k0, hk0⟩
              have := (mem_memPop.mp hk0).1
              rw [reconnect_mem] at this
              exact ⟨k0, this⟩
        · by_cases hrmem : inMem r st
          · obtain ⟨k0, hk0⟩ := hrmem
            have hk0id : k0 = r.id := hko _ hk0
            have hk0rf : k0 = rf.id := by
              by_contra hne
              apply hrm
              refine ⟨k0, mem_memPop.mpr ⟨?_, hne⟩⟩
              rw [reconnect_mem]
              exact hk0
            obtain ⟨⟨krf, hkrf⟩, hrfid, hrfem⟩ := memFind_some hf
            rw [reconnect_mem] at hkrf
            have hkrfid : krf = rf.id := hko _ hkrf
            have hrrf : r = rf := by
              have hkrf2 : (k0, rf) ∈ st.mem := by
                rw [hkrfid, ← hk0rf] at hkrf
                exact hkrf
              exact nodupKeys_eq hnd hk0 hkrf2
            right
            constructor
            · subst hm
              refine ⟨env, ?_⟩
              rw [hrrf, hrfid, hrfem]
            · constructor
              · simp only [inDb, step, hst]
                rcases hex with ⟨-, hnm⟩ | ⟨hndb, -⟩
                · exact absurd ⟨k0, hk0⟩ hnm
                · rw [reconnect_dbData]
                  exact hndb
              · simp only [inMem, step, hst]
                exact hrm
          · left
            constructor
            · simp only [inDb, step, hst, reconnect_dbData]
            · simp only [inMem, step, hst]
              constructor
              · intro h
                exact absurd h hrmem
              · rintro ⟨k0, hk0⟩
                have := (mem_memPop.mp hk0).1
                rw [reconnect_mem] at this
                exact absurd ⟨k0, this⟩ hrmem
    | listFor env e =>
      left
      simp only [step, listFor_state]
      exact sameStores_of_eq (reconnect_dbData _ _) (reconnect_mem _ _)
  · intro env st goal background dw email v hg hb he hvx hr hp hfresh
    have hstate := generate_success_state env st goal background dw email v
      hg hb he hvx hr hp
    have hnotdb : mkRecord env goal background dw email v ∉ st.dbData := by
      intro h
      exact hfresh.1 _ h rfl
    have hnotmem : ¬ inMem (mkRecord env goal background dw email v) st := by
      rintro ⟨k0, hk0⟩
      exact (hfresh.2 _ hk0).2 rfl
    cases hc : (reconnect env.connectOk st).conn with
    | false =>
      right
      have hst := hstate.1 hc
      constructor
      · simp only [inDb, step, hst, reconnect_dbData]
        exact hnotdb
      · simp only [inMem, step, hst]
        exact ⟨env.uuid, mem_memInsert_self _ _ _⟩
    | true =>
      cases hi : env.insertRaises with
      | true =>
        right
        have hst := hstate.2.1 hc hi
        constructor
        · simp only [inDb, step, hst, reconnect_dbData]
          exact hnotdb
        · simp only [inMem, step, hst]
          exact ⟨env.uuid, mem_memInsert_self _ _ _⟩
      | false =>
        left
        have hst := hstate.2.2 hc hi
        constructor
        · simp [inDb, step, hst]
        · simp only [inMem, step, hst, reconnect_mem]
          exact hnotmem

/-- C2 witness: the preservation half applied at a concrete state holding
exactly one record in the document store, against a list request. -/
theorem roadmap_record_exclusivity_witness :
    storedExactlyOnce ⟨"r1", "a@x.com", "t", "d", none, 0, JVal.null⟩
      ⟨true, [⟨"r1", "a@x.com", "t", "d", none, 0, JVal.null⟩], []⟩ ∧
    (sameStores ⟨"r1", "a@x.com", "t", "d", none, 0, JVal.null⟩
        ⟨true, [⟨"r1", "a@x.com", "t", "d", none, 0, JVal.null⟩], []⟩
        (step (Op.listFor ⟨false, false, ""⟩ ("a@x.com"))
          ⟨true, [⟨"r1", "a@x.com", "t", "d", none, 0, JVal.null⟩], []⟩).2 ∨
      (isOwnerDelete (Op.listFor ⟨false, false, ""⟩ ("a@x.com"))
          ⟨"r1", "a@x.com", "t", "d", none, 0, JVal.null⟩ ∧
        notStored ⟨"r1", "a@x.com", "t", "d", none, 0, JVal.null⟩
          (step (Op.listFor ⟨false, false, ""⟩ ("a@x.com"))
            ⟨true, [⟨"r1", "a@x.com", "t", "d", none, 0, JVal.null⟩], []⟩).2)) :=
  ⟨Or.inl ⟨by simp [inDb], by simp [inMem]⟩,
   roadmap_record_exclusivity.1 (Op.listFor ⟨false, false, ""⟩ ("a@x.com"))
     ⟨true, [⟨"r1", "a@x.com", "t", "d", none, 0, JVal.null⟩], []⟩
     ⟨"r1", "a@x.com", "t", "d", none, 0, JVal.null⟩
     (Or.inl ⟨by simp [inDb], by simp [inMem]⟩) trivial
     (by intro p hp; cases hp) (by simp [memKeysNodup])⟩
